import Mathlib

/-!
Verification of the ML5238 cell-balancing switch controller.

The repository documents the control-register map of the ML5238 battery
monitor front end.  The specification reconstructs from that documentation
one component with genuine behaviour: the cell-balancing controller, whose
operation `requestSwitchState` validates a requested configuration of the
16 cell-balancing switches (registers CBALH 08H and CBALL 09H) against the
chip's two inhibition rules and, on success, encodes it into the two
register bytes.  This file embeds that component and proves the claimed
properties about it.
-/

namespace ML5238

/-- A bank of 16 cell-balancing switches.  Switch `i` (spec indices
`1..16`, bits SW1..SW16 of registers CBALL/CBALH) is stored at position
`i - 1`. -/
def SwitchBank : Type := Fin 16 → Bool

/-- The requested state of switch `i`, for spec indices `1 ≤ i ≤ 16`;
any out-of-range index reads as OFF. -/
def sw (b : SwitchBank) (i : Nat) : Bool :=
  if h : 1 ≤ i ∧ i ≤ 16 then b ⟨i - 1, by omega⟩ else false

/-- Modelled from the spec: `ValidationError{conflictingIndices}` — the
error returned when a requested configuration violates one of the two
inhibition rules, carrying the first offending index. -/
inductive ValidationError : Type where
  | adjacentOn (i : Nat) : ValidationError
  | flankedOff (i : Nat) : ValidationError
deriving DecidableEq

/-- The switch index an error reports. -/
def ValidationError.index : ValidationError → Nat
  | .adjacentOn i => i
  | .flankedOff i => i

/-- Modelled from the spec: the derived register pair — upper byte
(switches 9..16, CBALH) and lower byte (switches 1..8, CBALL). -/
structure RegisterPair : Type where
  upperByte : Nat
  lowerByte : Nat
deriving DecidableEq

/-- Rule 1 violation at `i`: side-by-side switches `i` and `i+1` are both
requested ON. -/
def adjacentViol (b : SwitchBank) (i : Nat) : Bool :=
  sw b i && sw b (i + 1)

/-- Rule 2 violation at `i`: switch `i` is requested OFF while the
switches on both of its sides are requested ON.  At the ends of the bank
a missing neighbour reads as OFF, so the rule can only fire where both
neighbours exist. -/
def flankedViol (b : SwitchBank) (i : Nat) : Bool :=
  !sw b i && (sw b (i - 1) && sw b (i + 1))

/-- First index in `start, start+1, ..., start+n-1` satisfying `p`
(deterministic, lowest index first). -/
def scanFirst (p : Nat → Bool) : Nat → Nat → Option Nat
  | _, 0 => none
  | start, n + 1 => if p start then some start else scanFirst p (start + 1) n

/-- Scan for the lowest rule 1 violation over pairs `(i, i+1)`,
`i = 1..15`. -/
def findAdjacent (b : SwitchBank) : Option Nat :=
  scanFirst (adjacentViol b) 1 15

/-- Scan for the lowest rule 2 violation over `i = 1..16`. -/
def findFlanked (b : SwitchBank) : Option Nat :=
  scanFirst (flankedViol b) 1 16

/-- Modelled from the spec: CBALL value — bit `i - 1` is set for each ON
switch `i` in `1..8`. -/
def lowerByte (b : SwitchBank) : Nat :=
  (if sw b 1 then 1 else 0) + (if sw b 2 then 2 else 0) +
  (if sw b 3 then 4 else 0) + (if sw b 4 then 8 else 0) +
  (if sw b 5 then 16 else 0) + (if sw b 6 then 32 else 0) +
  (if sw b 7 then 64 else 0) + (if sw b 8 then 128 else 0)

/-- Modelled from the spec: CBALH value — bit `i - 9` is set for each ON
switch `i` in `9..16`. -/
def upperByte (b : SwitchBank) : Nat :=
  (if sw b 9 then 1 else 0) + (if sw b 10 then 2 else 0) +
  (if sw b 11 then 4 else 0) + (if sw b 12 then 8 else 0) +
  (if sw b 13 then 16 else 0) + (if sw b 14 then 32 else 0) +
  (if sw b 15 then 64 else 0) + (if sw b 16 then 128 else 0)

/-- Modelled from the spec: `requestSwitchState` — the operation of the
cell-balancing controller, absent from the source, reconstructed from the
validation algorithm of spec §4.1: scan pairs `(i, i+1)` for `i = 1..15`
and fail on the lowest side-by-side pair both ON; additionally scan
`i = 1..16` and fail on the lowest switch that is OFF with both neighbours
ON; on success produce the register pair. -/
def requestSwitchState (b : SwitchBank) : Except ValidationError RegisterPair :=
  match findAdjacent b with
  | some i => .error (.adjacentOn i)
  | none =>
    match findFlanked b with
    | some i => .error (.flankedOff i)
    | none => .ok ⟨upperByte b, lowerByte b⟩

/-- Modelled from the spec: the lifecycle of an accepted request — the
register pair is handed to the `writeRegister` collaborator as writes to
CBALH (08H) and CBALL (09H); a rejected request produces no write.  The
bus is modelled as the trace of `(address, value)` writes issued so
far. -/
def applyRequest (trace : List (Nat × Nat)) (b : SwitchBank) :
    Except ValidationError RegisterPair × List (Nat × Nat) :=
  match requestSwitchState b with
  | .ok rp => (.ok rp, trace ++ [(0x08, rp.upperByte), (0x09, rp.lowerByte)])
  | .error e => (.error e, trace)

/-- Decode a register pair back into a switch bank: switch `i` in `1..8`
is bit `i - 1` of the lower byte, switch `i` in `9..16` is bit `i - 9` of
the upper byte. -/
def decodeBank (rp : RegisterPair) : SwitchBank :=
  fun k => if k.val < 8 then rp.lowerByte.testBit k.val
           else rp.upperByte.testBit (k.val - 8)

/-- The two documented inhibition rules as a predicate on banks:
no side-by-side pair both ON, and no OFF switch with both neighbours
ON. -/
def satisfiesRules (b : SwitchBank) : Prop :=
  (∀ i < 16, ¬(sw b i = true ∧ sw b (i + 1) = true)) ∧
  (∀ i < 17, sw b i = false → ¬(sw b (i - 1) = true ∧ sw b (i + 1) = true))

instance : DecidablePred satisfiesRules := fun b => by
  unfold satisfiesRules; infer_instance

/-- The set of indices of switches requested ON. -/
def onSwitches (b : SwitchBank) : Finset Nat :=
  (Finset.Icc 1 16).filter (fun i => sw b i = true)

/-- The documented control-register map: address, register name, initial
value (source lines 10–22). -/
structure RegisterSpec : Type where
  addr : Nat
  regName : String
  initial : Nat

/-- The control-register map NOOP (00H) through SETSC (0AH), transcribed
from the source's table. -/
def controlRegisterMap : List RegisterSpec :=
  [⟨0x00, "NOOP", 0x00⟩, ⟨0x01, "VMON", 0x00⟩, ⟨0x02, "IMON", 0x00⟩,
   ⟨0x03, "FET", 0x00⟩, ⟨0x04, "PSENSE", 0x00⟩, ⟨0x05, "RSENSE", 0x00⟩,
   ⟨0x06, "POWER", 0x00⟩, ⟨0x07, "STATUS", 0x00⟩, ⟨0x08, "CBALH", 0x00⟩,
   ⟨0x09, "CBALL", 0x00⟩, ⟨0x0A, "SETSC", 0x00⟩]

/-- The all-OFF bank: every switch requested OFF (the power-on state of
CBALH/CBALL, both 00H). -/
def allOff : SwitchBank := fun _ => false

/-- Only switch 1 requested ON. -/
def singleOn1 : SwitchBank := fun k => decide (k.val = 0)

/-- Only switch 16 requested ON. -/
def singleOn16 : SwitchBank := fun k => decide (k.val = 15)

/-- Switches 3 and 4 requested ON (a side-by-side pair). -/
def bank34 : SwitchBank := fun k => decide (k.val = 2) || decide (k.val = 3)

/-- Switches 1 and 3 requested ON (switch 2 OFF, flanked). -/
def bank13 : SwitchBank := fun k => decide (k.val = 0) || decide (k.val = 2)

/-- Switches 1, 3 and 5 requested ON. -/
def bank135 : SwitchBank :=
  fun k => decide (k.val = 0) || decide (k.val = 2) || decide (k.val = 4)

/-- Switches 1, 4 and 7 requested ON. -/
def bank147 : SwitchBank :=
  fun k => decide (k.val = 0) || decide (k.val = 3) || decide (k.val = 6)

/-- Switches 1, 3, 5 and 6 requested ON. -/
def bank1356 : SwitchBank :=
  fun k => decide (k.val = 0) || decide (k.val = 2) || decide (k.val = 4) ||
    decide (k.val = 5)

/-- Switches 1, 4, 7, 10, 13 and 16 requested ON (positions `k` with
`k % 3 = 0`). -/
def bank6on : SwitchBank := fun k => decide (k.val % 3 = 0)

/-- `scanFirst` finds `i` when `p` holds at `i`, `i` lies in the scanned
window, and `p` fails everywhere before `i`. -/
theorem scanFirst_eq_some (p : Nat → Bool) :
    ∀ (n start i : Nat), start ≤ i → i < start + n → p i = true →
      (∀ j, start ≤ j → j < i → p j = false) →
      scanFirst p start n = some i := by
  intro n
  induction n with
  | zero => intro start i h1 h2 _ _; omega
  | succ n ih =>
    intro start i h1 h2 hp hmin
    simp only [scanFirst]
    by_cases hs : p start = true
    · have heq : start = i := by
        by_contra hne
        have hmf := hmin start (le_refl _) (by omega)
        rw [hmf] at hs
        exact Bool.noConfusion hs
      rw [if_pos hs, heq]
    · have hne : start ≠ i := fun he => hs (he ▸ hp)
      rw [if_neg hs]
      exact ih (start + 1) i (by omega) (by omega) hp
        (fun j hj1 hj2 => hmin j (by omega) hj2)

/-- `scanFirst` finds nothing when `p` fails on the whole window. -/
theorem scanFirst_eq_none (p : Nat → Bool) :
    ∀ (n start : Nat), (∀ j, start ≤ j → j < start + n → p j = false) →
      scanFirst p start n = none := by
  intro n
  induction n with
  | zero => intro start _; rfl
  | succ n ih =>
    intro start hall
    have hs : p start = false := hall start (le_refl _) (by omega)
    simp only [scanFirst, hs, Bool.false_eq_true, if_false]
    exact ih (start + 1) (fun j hj1 hj2 => hall j (by omega) (by omega))

/-- Reading the switch at a valid position recovers the stored boolean. -/
theorem sw_succ_val (b : SwitchBank) (k : Fin 16) : sw b (k.val + 1) = b k := by
  have hk := k.isLt
  have hcond : 1 ≤ k.val + 1 ∧ k.val + 1 ≤ 16 := ⟨by omega, by omega⟩
  simp only [sw]
  rw [dif_pos hcond]
  exact congrArg b (Fin.ext (by simp))

/-- An ON reading can only come from an in-range index. -/
theorem sw_true_bounds (b : SwitchBank) (i : Nat) (h : sw b i = true) :
    1 ≤ i ∧ i ≤ 16 := by
  by_contra hc
  unfold sw at h
  rw [dif_neg hc] at h
  exact Bool.noConfusion h

/-- A guarded constant equals the constant times the guard's `toNat`. -/
theorem if_toNat (c : Nat) (t : Bool) : (if t then c else 0) = c * t.toNat := by
  cases t <;> simp

/-- `lowerByte` as a weighted sum of the switch bits 1..8. -/
theorem lowerByte_eq (b : SwitchBank) :
    lowerByte b = 1 * (sw b 1).toNat + 2 * (sw b 2).toNat +
      4 * (sw b 3).toNat + 8 * (sw b 4).toNat + 16 * (sw b 5).toNat +
      32 * (sw b 6).toNat + 64 * (sw b 7).toNat + 128 * (sw b 8).toNat := by
  simp only [lowerByte, if_toNat]

/-- `upperByte` as a weighted sum of the switch bits 9..16. -/
theorem upperByte_eq (b : SwitchBank) :
    upperByte b = 1 * (sw b 9).toNat + 2 * (sw b 10).toNat +
      4 * (sw b 11).toNat + 8 * (sw b 12).toNat + 16 * (sw b 13).toNat +
      32 * (sw b 14).toNat + 64 * (sw b 15).toNat + 128 * (sw b 16).toNat := by
  simp only [upperByte, if_toNat]

/-- To compute a `decide` it is enough to characterise the proposition by
the target boolean. -/
theorem decide_eq_of_iff (P : Prop) [Decidable P] (t : Bool)
    (h : P ↔ t = true) : decide P = t := by
  cases t
  · simp only [decide_eq_false_iff_not]
    intro hp
    exact Bool.noConfusion (h.mp hp)
  · simp only [decide_eq_true_eq]
    exact h.mpr rfl

/-- A boolean is `true` exactly when its `toNat` is 1. -/
theorem bool_eq_true_iff_toNat (t : Bool) : t = true ↔ t.toNat = 1 := by
  cases t <;> simp

/-- Bit `j` of `lowerByte` is the requested state of switch `j + 1`,
for `j < 8`. -/
theorem testBit_lowerByte (b : SwitchBank) (j : Nat) (hj : j < 8) :
    (lowerByte b).testBit j = sw b (j + 1) := by
  have t1 := Bool.toNat_le (sw b 1)
  have t2 := Bool.toNat_le (sw b 2)
  have t3 := Bool.toNat_le (sw b 3)
  have t4 := Bool.toNat_le (sw b 4)
  have t5 := Bool.toNat_le (sw b 5)
  have t6 := Bool.toNat_le (sw b 6)
  have t7 := Bool.toNat_le (sw b 7)
  have t8 := Bool.toNat_le (sw b 8)
  rw [Nat.testBit_to_div_mod, lowerByte_eq]
  interval_cases j
  all_goals
    apply decide_eq_of_iff
    simp only [Nat.reduceAdd]
    rw [bool_eq_true_iff_toNat]
    omega

/-- Bit `j` of `upperByte` is the requested state of switch `j + 9`,
for `j < 8`. -/
theorem testBit_upperByte (b : SwitchBank) (j : Nat) (hj : j < 8) :
    (upperByte b).testBit j = sw b (j + 9) := by
  have t1 := Bool.toNat_le (sw b 9)
  have t2 := Bool.toNat_le (sw b 10)
  have t3 := Bool.toNat_le (sw b 11)
  have t4 := Bool.toNat_le (sw b 12)
  have t5 := Bool.toNat_le (sw b 13)
  have t6 := Bool.toNat_le (sw b 14)
  have t7 := Bool.toNat_le (sw b 15)
  have t8 := Bool.toNat_le (sw b 16)
  rw [Nat.testBit_to_div_mod, upperByte_eq]
  interval_cases j
  all_goals
    apply decide_eq_of_iff
    simp only [Nat.reduceAdd]
    rw [bool_eq_true_iff_toNat]
    omega

/-- The lower register byte fits in 8 bits. -/
theorem lowerByte_lt (b : SwitchBank) : lowerByte b < 256 := by
  have t1 := Bool.toNat_le (sw b 1)
  have t2 := Bool.toNat_le (sw b 2)
  have t3 := Bool.toNat_le (sw b 3)
  have t4 := Bool.toNat_le (sw b 4)
  have t5 := Bool.toNat_le (sw b 5)
  have t6 := Bool.toNat_le (sw b 6)
  have t7 := Bool.toNat_le (sw b 7)
  have t8 := Bool.toNat_le (sw b 8)
  rw [lowerByte_eq]
  omega

/-- The upper register byte fits in 8 bits. -/
theorem upperByte_lt (b : SwitchBank) : upperByte b < 256 := by
  have t1 := Bool.toNat_le (sw b 9)
  have t2 := Bool.toNat_le (sw b 10)
  have t3 := Bool.toNat_le (sw b 11)
  have t4 := Bool.toNat_le (sw b 12)
  have t5 := Bool.toNat_le (sw b 13)
  have t6 := Bool.toNat_le (sw b 14)
  have t7 := Bool.toNat_le (sw b 15)
  have t8 := Bool.toNat_le (sw b 16)
  rw [upperByte_eq]
  omega

/-- A successful request returns exactly the encoded register pair. -/
theorem requestSwitchState_ok (b : SwitchBank) (rp : RegisterPair)
    (h : requestSwitchState b = .ok rp) :
    rp = ⟨upperByte b, lowerByte b⟩ := by
  unfold requestSwitchState at h
  split at h
  · exact Except.noConfusion h
  · split at h
    · exact Except.noConfusion h
    · injection h with h2
      exact h2.symm

/-- C1: for every request in which some pair of switches at adjacent
indices `(i, i+1)` are both requested ON, with `i` the lowest such index,
`requestSwitchState` returns the adjacent-pair `ValidationError`
referencing `i`, and no `RegisterPair` is produced. -/
theorem c1_adjacent_pair_rejected (b : SwitchBank) (i : Nat)
    (hlo : 1 ≤ i) (hhi : i ≤ 15)
    (hon : sw b i = true) (hon2 : sw b (i + 1) = true)
    (hleast : ∀ j < i, ¬(1 ≤ j ∧ sw b j = true ∧ sw b (j + 1) = true)) :
    requestSwitchState b = .error (ValidationError.adjacentOn i) ∧
    (ValidationError.adjacentOn i).index = i ∧
    ∀ rp : RegisterPair, requestSwitchState b ≠ .ok rp := by
  have hfind : findAdjacent b = some i := by
    apply scanFirst_eq_some (adjacentViol b) 15 1 i hlo (by omega)
    · simp [adjacentViol, hon, hon2]
    · intro j hj1 hj2
      have hne := hleast j hj2
      cases h1 : sw b j <;> cases h2 : sw b (j + 1) <;>
        simp_all [adjacentViol]
  have hmain : requestSwitchState b = .error (ValidationError.adjacentOn i) := by
    unfold requestSwitchState
    rw [hfind]
  refine ⟨hmain, rfl, fun rp hrp => ?_⟩
  rw [hmain] at hrp
  exact Except.noConfusion hrp

/-- C1 witness: switches 3 and 4 both requested ON are rejected with the
adjacent-pair error at index 3. -/
theorem c1_witness :
    requestSwitchState bank34 = .error (ValidationError.adjacentOn 3) ∧
    (ValidationError.adjacentOn 3).index = 3 ∧
    ∀ rp : RegisterPair, requestSwitchState bank34 ≠ .ok rp :=
  c1_adjacent_pair_rejected bank34 3 (by decide) (by decide) (by decide)
    (by decide) (by decide)

/-- C2 counterexample: in the request with switches 1, 3, 5 and 6 ON,
switch 2 is OFF with both of its neighbours ON, yet the returned error
references index 5 — a switch that is ON, not an OFF switch flanked by
two ON neighbours — because the side-by-side pair (5, 6) is reported
first. -/
theorem c2_counterexample :
    (sw bank1356 2 = false ∧ sw bank1356 1 = true ∧ sw bank1356 3 = true) ∧
    requestSwitchState bank1356 = .error (ValidationError.adjacentOn 5) ∧
    (ValidationError.adjacentOn 5).index = 5 ∧ sw bank1356 5 = true :=
  ⟨⟨rfl, rfl, rfl⟩, rfl, rfl, rfl⟩

/-- C2 amended: for every request in which no side-by-side pair is both
requested ON and some switch `i` is requested OFF while both of its
neighbours are requested ON, with `i` the lowest such index,
`requestSwitchState` returns the flanked-switch `ValidationError`
referencing `i`, and no `RegisterPair` is produced. -/
theorem c2_flanked_off_rejected (b : SwitchBank) (i : Nat)
    (hlo : 1 ≤ i) (hhi : i ≤ 16)
    (hoff : sw b i = false) (hl : sw b (i - 1) = true)
    (hr : sw b (i + 1) = true)
    (hnoadj : ∀ j < 16, ¬(sw b j = true ∧ sw b (j + 1) = true))
    (hleast : ∀ j < i,
      ¬(1 ≤ j ∧ sw b j = false ∧ sw b (j - 1) = true ∧ sw b (j + 1) = true)) :
    requestSwitchState b = .error (ValidationError.flankedOff i) ∧
    (ValidationError.flankedOff i).index = i ∧
    ∀ rp : RegisterPair, requestSwitchState b ≠ .ok rp := by
  have hadj : findAdjacent b = none := by
    apply scanFirst_eq_none
    intro j hj1 hj2
    have hne := hnoadj j (by omega)
    cases h1 : sw b j <;> cases h2 : sw b (j + 1) <;>
      simp_all [adjacentViol]
  have hfl : findFlanked b = some i := by
    apply scanFirst_eq_some (flankedViol b) 16 1 i hlo (by omega)
    · simp [flankedViol, hoff, hl, hr]
    · intro j hj1 hj2
      have hne := hleast j hj2
      cases h1 : sw b j <;> cases h2 : sw b (j - 1) <;>
        cases h3 : sw b (j + 1) <;> simp_all [flankedViol]
  have hmain : requestSwitchState b = .error (ValidationError.flankedOff i) := by
    unfold requestSwitchState
    rw [hadj, hfl]
  refine ⟨hmain, rfl, fun rp hrp => ?_⟩
  rw [hmain] at hrp
  exact Except.noConfusion hrp

/-- C2 amended witness: switches 1 and 3 ON leave switch 2 OFF and
flanked; the request is rejected with the flanked-switch error at
index 2. -/
theorem c2_witness :
    requestSwitchState bank13 = .error (ValidationError.flankedOff 2) ∧
    (ValidationError.flankedOff 2).index = 2 ∧
    ∀ rp : RegisterPair, requestSwitchState bank13 ≠ .ok rp :=
  c2_flanked_off_rejected bank13 2 (by decide) (by decide) (by decide)
    (by decide) (by decide) (by decide) (by decide)

/-- C3: every accepted request yields the register pair whose lower byte
has exactly bit `i − 1` set for each ON switch `i` in 1..8 and whose
upper byte has exactly bit `i − 9` set for each ON switch `i` in 9..16
(both bytes are below 256, so no higher bit is set); in particular the
single switch 1 request yields upper 0x00 / lower 0x01 and the single
switch 16 request yields upper 0x80 / lower 0x00. -/
theorem c3_encoding (b : SwitchBank) (rp : RegisterPair)
    (h : requestSwitchState b = .ok rp) :
    (∀ j < 8, rp.lowerByte.testBit j = sw b (j + 1)) ∧
    (∀ j < 8, rp.upperByte.testBit j = sw b (j + 9)) ∧
    rp.lowerByte < 256 ∧ rp.upperByte < 256 ∧
    requestSwitchState singleOn1 = .ok ⟨0x00, 0x01⟩ ∧
    requestSwitchState singleOn16 = .ok ⟨0x80, 0x00⟩ := by
  obtain rfl := requestSwitchState_ok b rp h
  exact ⟨fun j hj => testBit_lowerByte b j hj,
    fun j hj => testBit_upperByte b j hj,
    lowerByte_lt b, upperByte_lt b, rfl, rfl⟩

/-- C3 witness: the single switch 1 request is accepted and its pair
0x00 / 0x01 carries exactly the requested bits. -/
theorem c3_witness :
    (∀ j < 8, (RegisterPair.mk 0x00 0x01).lowerByte.testBit j = sw singleOn1 (j + 1)) ∧
    (∀ j < 8, (RegisterPair.mk 0x00 0x01).upperByte.testBit j = sw singleOn1 (j + 9)) ∧
    (RegisterPair.mk 0x00 0x01).lowerByte < 256 ∧
    (RegisterPair.mk 0x00 0x01).upperByte < 256 ∧
    requestSwitchState singleOn1 = .ok ⟨0x00, 0x01⟩ ∧
    requestSwitchState singleOn16 = .ok ⟨0x80, 0x00⟩ :=
  c3_encoding singleOn1 ⟨0x00, 0x01⟩ rfl

/-- C4 counterexample: the request with switches 1, 3 and 5 ON does not
succeed — switch 2 is OFF with both of its neighbours ON, so the request
is rejected with the flanked-switch error at index 2 and no register pair
is produced. -/
theorem c4_counterexample :
    requestSwitchState bank135 = .error (ValidationError.flankedOff 2) ∧
    ∀ rp : RegisterPair, requestSwitchState bank135 ≠ .ok rp := by
  have hmain : requestSwitchState bank135 = .error (ValidationError.flankedOff 2) :=
    rfl
  refine ⟨hmain, fun rp hrp => ?_⟩
  rw [hmain] at hrp
  exact Except.noConfusion hrp

/-- C4 amended: the request with switches 1, 3 and 5 ON violates rule 2
(switch 2 is OFF with both neighbours ON) and is rejected with the error
referencing index 2; a request respecting both rules — switches 1, 4 and
7 ON — succeeds with lowerByte 0x49 and upperByte 0x00, matching the
documented table bit for bit. -/
theorem c4_valid_pattern_encodes :
    requestSwitchState bank147 = .ok ⟨0x00, 0x49⟩ ∧
    requestSwitchState bank135 = .error (ValidationError.flankedOff 2) ∧
    (ValidationError.flankedOff 2).index = 2 :=
  ⟨rfl, rfl, rfl⟩

/-- C5: the all-OFF request succeeds and returns the register pair
upperByte 0x00, lowerByte 0x00. -/
theorem c5_all_off_ok : requestSwitchState allOff = .ok ⟨0x00, 0x00⟩ := rfl

/-- C6: `requestSwitchState` is a pure function of the 16 requested
booleans: two calls on extensionally equal inputs return the same result,
and a repeated call on the same input returns the same result (the
embedding holds no process state that a call could mutate). -/
theorem c6_idempotent (b b2 : SwitchBank)
    (h : ∀ i, sw b i = sw b2 i) :
    requestSwitchState b = requestSwitchState b2 ∧
    requestSwitchState b = requestSwitchState b := by
  have hb : b = b2 := by
    funext k
    have hk := h (k.val + 1)
    rw [sw_succ_val b k, sw_succ_val b2 k] at hk
    exact hk
  exact ⟨by rw [hb], rfl⟩

/-- C6 witness: two calls on the all-OFF request agree. -/
theorem c6_witness :
    requestSwitchState allOff = requestSwitchState allOff ∧
    requestSwitchState allOff = requestSwitchState allOff :=
  c6_idempotent allOff allOff (fun _ => rfl)

/-- C7: `requestSwitchState` is a pure validator/encoder — it is embedded
as a function of the bank alone, with no access to the bus — and on a
rejected request the driver lifecycle `applyRequest` issues no
`writeRegister` call (the write trace is unchanged) and no register pair
is produced. -/
theorem c7_rejected_no_write (trace : List (Nat × Nat)) (b : SwitchBank)
    (e : ValidationError) (h : requestSwitchState b = .error e) :
    applyRequest trace b = (.error e, trace) ∧
    (applyRequest trace b).2 = trace ∧
    ∀ rp : RegisterPair, requestSwitchState b ≠ .ok rp := by
  have hmain : applyRequest trace b = (.error e, trace) := by
    unfold applyRequest
    rw [h]
  refine ⟨hmain, by rw [hmain], fun rp hrp => ?_⟩
  rw [h] at hrp
  exact Except.noConfusion hrp

/-- C7 witness: the rejected request with switches 3 and 4 ON leaves an
empty write trace empty. -/
theorem c7_witness :
    applyRequest [] bank34 = (.error (ValidationError.adjacentOn 3), []) ∧
    (applyRequest [] bank34).2 = [] ∧
    ∀ rp : RegisterPair, requestSwitchState bank34 ≠ .ok rp :=
  c7_rejected_no_write [] bank34 (ValidationError.adjacentOn 3) rfl

/-- C8: in every configuration satisfying both documented inhibition
rules, any two ON switches have indices at least 3 apart, and hence at
most 6 of the 16 switches are ON. -/
theorem c8_min_spacing_and_count (b : SwitchBank) (h : satisfiesRules b) :
    (∀ i j, sw b i = true → sw b j = true → i < j → i + 3 ≤ j) ∧
    (onSwitches b).card ≤ 6 := by
  obtain ⟨h1, h2⟩ := h
  have hspace : ∀ i j, sw b i = true → sw b j = true → i < j → i + 3 ≤ j := by
    intro i j hi hj hij
    have hbi := sw_true_bounds b i hi
    have hbj := sw_true_bounds b j hj
    by_contra hlt
    have hcase : j = i + 1 ∨ j = i + 2 := by omega
    rcases hcase with rfl | rfl
    · exact h1 i (by omega) ⟨hi, hj⟩
    · cases hmid : sw b (i + 1) with
      | true => exact h1 i (by omega) ⟨hi, hmid⟩
      | false => exact h2 (i + 1) (by omega) hmid ⟨hi, hj⟩
  refine ⟨hspace, ?_⟩
  have hmaps : ∀ a ∈ onSwitches b, (a - 1) / 3 ∈ Finset.range 6 := by
    intro a ha
    simp only [onSwitches, Finset.mem_filter, Finset.mem_Icc] at ha
    simp only [Finset.mem_range]
    omega
  have hinj : Set.InjOn (fun a => (a - 1) / 3) (onSwitches b) := by
    intro x hx y hy hxy
    rw [Finset.mem_coe] at hx hy
    simp only [onSwitches, Finset.mem_filter, Finset.mem_Icc] at hx hy
    have hxy2 : (x - 1) / 3 = (y - 1) / 3 := hxy
    by_contra hne
    rcases Nat.lt_or_ge x y with hlt | hge
    · have := hspace x y hx.2 hy.2 hlt
      omega
    · have hylt : y < x := by omega
      have := hspace y x hy.2 hx.2 hylt
      omega
  have hcard := Finset.card_le_card_of_injOn (fun a => (a - 1) / 3) hmaps hinj
  simpa using hcard

/-- C8 witness: the bank with switches 1, 4, 7, 10, 13 and 16 ON
satisfies both rules, its ON switches are pairwise at least 3 apart, and
it has at most 6 switches ON. -/
theorem c8_witness :
    satisfiesRules bank6on ∧
    ((∀ i j, sw bank6on i = true → sw bank6on j = true → i < j → i + 3 ≤ j) ∧
     (onSwitches bank6on).card ≤ 6) :=
  ⟨by decide, c8_min_spacing_and_count bank6on (by decide)⟩

/-- C9: the encoding is invertible and injective on accepted banks:
decoding the produced pair bit by bit recovers exactly the original bank,
and two accepted banks that produce the same pair are the same bank. -/
theorem c9_roundtrip (b b2 : SwitchBank) (rp rp2 : RegisterPair)
    (h : requestSwitchState b = .ok rp)
    (h2 : requestSwitchState b2 = .ok rp2) :
    decodeBank rp = b ∧ (rp = rp2 → b = b2) := by
  have key : ∀ (c : SwitchBank) (p : RegisterPair),
      requestSwitchState c = .ok p → decodeBank p = c := by
    intro c p hp
    obtain rfl := requestSwitchState_ok c p hp
    funext k
    have hk := k.isLt
    by_cases hk8 : k.val < 8
    · simp only [decodeBank]
      rw [if_pos hk8]
      show (lowerByte c).testBit k.val = c k
      rw [testBit_lowerByte c k.val hk8]
      exact sw_succ_val c k
    · simp only [decodeBank]
      rw [if_neg hk8]
      show (upperByte c).testBit (k.val - 8) = c k
      rw [testBit_upperByte c (k.val - 8) (by omega)]
      have harg : k.val - 8 + 9 = k.val + 1 := by omega
      rw [harg]
      exact sw_succ_val c k
  exact ⟨key b rp h, fun he => by rw [← key b rp h, he, key b2 rp2 h2]⟩

/-- C9 witness: decoding 0x00 / 0x01 recovers the single switch 1
bank. -/
theorem c9_witness :
    decodeBank ⟨0x00, 0x01⟩ = singleOn1 ∧
    ((⟨0x00, 0x01⟩ : RegisterPair) = ⟨0x00, 0x01⟩ → singleOn1 = singleOn1) :=
  c9_roundtrip singleOn1 singleOn1 ⟨0x00, 0x01⟩ ⟨0x00, 0x01⟩ rfl rfl

/-- C10: every register in the documented map NOOP (00H) through SETSC
(0AH) has initial value 00H; decoding the initial CBALH/CBALL values
00H/00H gives the all-OFF bank, which satisfies both inhibition rules and
is accepted by `requestSwitchState`. -/
theorem c10_initial_state_valid :
    controlRegisterMap.all (fun r => r.initial == 0x00) = true ∧
    decodeBank ⟨0x00, 0x00⟩ = allOff ∧
    satisfiesRules allOff ∧
    requestSwitchState allOff = .ok ⟨0x00, 0x00⟩ := by
  refine ⟨rfl, ?_, by decide, rfl⟩
  funext k
  simp [decodeBank, allOff, Nat.zero_testBit]

end ML5238
